import Mathlib

/-!
# Verification of the recruitment-system allocation pipeline

A shallow embedding of the candidate–position allocation pipeline of the
`recruitment_system` repository, together with proofs and refutations of the
frozen specification claims.

Embedded code:
* `llm_service.py` — `LLMService.evaluate_candidate_for_position`
  (score clamping and deterministic grade derivation),
  `LLMService.match_position_to_intention` (its Python signature),
  and the degraded defaults of `safe_parse_json`.
* `service.py` — `RecruitmentService.process_resume` (steps 1–7),
  `RecruitmentService._find_best_position`,
  `RecruitmentService._reallocate_explicit_intention_candidates`,
  `RecruitmentService._log_audit` (session-add only, no commit).
* `agent_nodes.py` — `ResumeProcessingNodes.node_make_allocation_decision`.

Conventions of the embedding:
* The external reasoning service (LLM) is modelled by outcome oracles: each
  call site receives either a raised exception (`raised`/`Except.error`) or a
  returned response.  A returned response is represented by the result of
  `safe_parse_json` on it: `none` for an unparsable response (the documented
  degraded default is then used), `some r` for a parsed JSON object whose
  fields may individually be missing (`Option`).
* Python floats used as confidence thresholds are modelled as rationals
  (the comparisons performed by the code, such as `0.9 > 0.8`, are exact at
  these values).
* The SQLAlchemy session is modelled as a committed `Store` plus the list of
  rows that have been `add`ed but not committed; `commit` moves pending rows
  into the store, `rollback` drops them.  Wall-clock timestamp columns
  (`uploaded_at`, `evaluated_at`, …) are outside the embedding: no claim
  mentions them.
* A Python positional call binds its arguments only when the argument count
  equals the parameter count of the callee; otherwise the call raises
  `TypeError` before the body runs.  This matters for
  `match_position_to_intention`, whose signature has two parameters besides
  `self` while the call site in `_reallocate_explicit_intention_candidates`
  passes three arguments.
-/

namespace Recruitment

/-! ## Data model (models.py) -/

/-- A row of the `positions` table (`models.py`, class `Position`).
Statistics counters and timestamp columns are omitted: no embedded code path
reads them. -/
structure Position where
  position_id : Nat
  name : String
  description : String
  required_skills : List String
  is_active : Bool
deriving Repr, DecidableEq

/-- A row of the `candidates` table (`models.py`, class `Candidate`).
Timestamp columns (`uploaded_at`, `last_reallocation_at`) are omitted. -/
structure Candidate where
  candidate_id : Nat
  name : String
  age : Option Int
  email : Option String
  phone : Option String
  skills_json : List String
  work_experience : String
  education : String
  certifications : String
  self_evaluation : Option String
  extraction_quality : Int
  has_explicit_position : Bool
  explicit_position : Option String
  explicit_position_source : Option String
  no_matched_position : Bool
  auto_matched_position : Option String
  auto_matched_position_score : Option Int
  is_position_locked : Bool
  reallocation_count : Nat
deriving Repr, DecidableEq

/-- A row of the `candidate_position_match` table (`models.py`,
class `CandidatePositionMatch`). -/
structure MatchRow where
  candidate_id : Nat
  position_id : Nat
  overall_score : Int
  grade : String
  evaluation_reason : String
  is_qualified : Bool
  evaluation_method : String
deriving Repr, DecidableEq

/-- A row of the `position_allocation_history` table (`models.py`,
class `PositionAllocationHistory`). -/
structure HistoryRow where
  candidate_id : Nat
  old_position : Option String
  old_score : Option Int
  new_position : String
  new_score : Int
  trigger_event : String
  reason : String
deriving Repr, DecidableEq

/-- A row of the `audit_log` table (`models.py`, class `AuditLog`).
The JSON `details` column is represented by its rendered text. -/
structure AuditRow where
  operator : String
  action : String
  candidate_id : Option Nat
  position_id : Option Nat
deriving Repr, DecidableEq

/-- A row of the `candidate_version` table (`models.py`,
class `CandidateVersion`). -/
structure VersionRow where
  candidate_id : Nat
  notes : String
deriving Repr, DecidableEq

/-- The committed contents of the relational store. -/
structure Store where
  positions : List Position
  candidates : List Candidate
  matchRows : List MatchRow
  history : List HistoryRow
  versions : List VersionRow
  audits : List AuditRow
deriving Repr, DecidableEq

/-! ## Reasoning-service responses and degraded defaults (llm_service.py) -/

/-- The fields of a parsed JSON response to the evaluate-candidate prompt
(`llm_service.py`, `evaluate_candidate_for_position`).  `overall_score` is
`none` when the key is missing or `int()` fails on its value; `grade` is the
grade string proposed by the reasoning service (later overwritten);
`evaluation_reason` is `none` when that key is missing. -/
structure ParsedEval where
  overall_score : Option Int
  grade : Option String
  evaluation_reason : Option String
deriving Repr, DecidableEq

/-- The evaluation dictionary after `evaluate_candidate_for_position`
post-processing: `overall_score` and `grade` are always present. -/
structure EvalResult where
  overall_score : Int
  grade : String
  evaluation_reason : Option String
deriving Repr, DecidableEq

/-- `llm_service.py` lines 333–343: the `default_value` handed to
`safe_parse_json` for the evaluate-candidate call, used when the response
is unparsable. -/
def evalParseDefault : ParsedEval :=
  { overall_score := some 50, grade := some "D", evaluation_reason := some "无法评分" }

/-- `llm_service.py` lines 345–361: the caller-side post-processing of an
evaluate-candidate response.  `parsed` is the outcome of `safe_parse_json`
(`none` = unparsable, so the default dictionary is used).  The score is
converted with `int()` (failure gives the literal 50) and clamped with
`max(0, min(100, score))`; the grade is then rederived from the final score,
overwriting whatever grade the response proposed. -/
def evaluatePost (parsed : Option ParsedEval) : EvalResult :=
  let r0 := match parsed with
    | some r => r
    | none => evalParseDefault
  let score : Int := match r0.overall_score with
    | some s => max 0 (min 100 s)
    | none => 50
  { overall_score := score
  , grade :=
      if 86 ≤ score then "A"
      else if 76 ≤ score then "B"
      else if 60 ≤ score then "C"
      else "D"
  , evaluation_reason := r0.evaluation_reason }

/-- Grade table as the specification words it (§4.3 / §8): score ≥ 86 gives A,
76–85 gives B, 60–75 gives C, below 60 gives D.  Written from the spec, to be
compared with the code-side derivation inside `evaluatePost`. -/
def gradeSpec (s : Int) : String :=
  if 86 ≤ s then "A"
  else if 76 ≤ s ∧ s ≤ 85 then "B"
  else if 60 ≤ s ∧ s ≤ 75 then "C"
  else "D"

/-- Outcome of one `self.llm.evaluate_candidate_for_position(...)` call as
seen by the caller in `service.py`: the call raised (`raised msg`), or it
returned a response whose `safe_parse_json` outcome is `parsed`. -/
inductive EvalCallOutcome where
  | raised (msg : String)
  | returned (parsed : Option ParsedEval)
deriving Repr, DecidableEq

/-- `service.py` lines 91–110 (step 5 of `process_resume`): the evaluation
recorded for one position.  A raised call is degraded to score 0, grade "D"
and a rationale `"评分失败: " ++ msg`; a returned response goes through
`evaluatePost`. -/
def evalOutcomeResult (o : EvalCallOutcome) : EvalResult :=
  match o with
  | .raised msg =>
      { overall_score := 0, grade := "D", evaluation_reason := some ("评分失败: " ++ msg) }
  | .returned parsed => evaluatePost parsed

/-! ## Best-position selection (service.py, `_find_best_position`) -/

/-- The loop of `_find_best_position` (`service.py` lines 617–625): the
accumulator starts at `(None, -1)` and is replaced only on a strictly greater
score, so the first occurrence of the maximal score wins. -/
def findBestGo (best : Option Nat × Int) : List (Nat × EvalResult) → Option Nat × Int
  | [] => best
  | (pid, e) :: rest =>
      if e.overall_score > best.2 then findBestGo (some pid, e.overall_score) rest
      else findBestGo best rest

/-- `service.py` lines 612–626, `RecruitmentService._find_best_position`:
returns `(None, 0)` on an empty evaluation dictionary, otherwise runs the
first-max loop.  The association list carries the dictionary's insertion
order, i.e. the order in which active positions were evaluated. -/
def find_best_position (evaluations : List (Nat × EvalResult)) : Option Nat × Int :=
  if evaluations.isEmpty then (none, 0)
  else findBestGo (none, -1) evaluations

/-- `evaluations.get(pid, {})` on the evaluation dictionary: first value bound
to the key, if any. -/
def lookupEval (pid : Nat) : List (Nat × EvalResult) → Option EvalResult
  | [] => none
  | (k, v) :: rest => if k = pid then some v else lookupEval pid rest

/-! ## The résumé pipeline (service.py, `process_resume`) -/

/-- The intention dictionary returned by `analyze_job_intention`
(`llm_service.py` lines 273–302).  Only the fields the pipeline reads. -/
structure Intention where
  has_explicit_position : Bool
  explicit_position : Option String
  explicit_position_source : Option String
deriving Repr, DecidableEq

/-- `service.py` lines 82–87: the degraded intention substituted when the
intention-analysis call raises. -/
def intentionFallback : Intention :=
  { has_explicit_position := false, explicit_position := none
  , explicit_position_source := none }

/-- The candidate-information dictionary produced by `extract_candidate_info`
(`llm_service.py`).  Fields read with `.get(...)` defaults in `process_resume`
are `Option`-valued here. -/
structure CandidateInfo where
  name : Option String
  age : Option Int
  email : Option String
  phone : Option String
  skills : List String
  work_experience : String
  education : String
  certifications : String
  self_evaluation : Option String
  extraction_quality : Option Int
deriving Repr, DecidableEq

/-- The external outcomes of one `process_resume` run: the PDF-parse outcome,
the extraction outcome, the intention-analysis call outcome, the
evaluate-candidate call outcome for each position id, whether the database
write fails, and the uploaded filename. -/
structure ResumeEnv where
  pdf : Except String String
  extract : Except String CandidateInfo
  intentionCall : Except String Intention
  evalCall : Nat → EvalCallOutcome
  dbFails : Bool
  filename : String

/-- `service.py` line 49: the active-position query
`query(Position).filter(Position.is_active == True)`. -/
def activePositions (store : Store) : List Position :=
  store.positions.filter (fun p => p.is_active)

/-- Step 5 of `process_resume` (`service.py` lines 90–110): the evaluation
dictionary, keyed by position id in active-position order. -/
def buildEvaluations (env : ResumeEnv) (store : Store) : List (Nat × EvalResult) :=
  (activePositions store).map
    (fun p => (p.position_id, evalOutcomeResult (env.evalCall p.position_id)))

/-- The allocation decision computed by step 6. -/
structure Decision where
  is_locked : Bool
  no_matched : Bool
  auto_matched_position : Option String
  best_score : Int
deriving Repr, DecidableEq

/-- `service.py` lines 112–138 (step 6 of `process_resume`).  `best_position`
is looked up by id over the whole `positions` table when the best id is truthy
(autoincremented ids start at 1, so 0 is Python-falsy).  When the intention
names an explicit position, that name is looked up over the whole `positions`
table; if found, the decision locks onto it and takes
`evaluations.get(pid, {}).get("overall_score", 60)` as the score; if not
found, `no_matched` is set and the provisional best assignment stands. -/
def resumeDecision (store : Store) (evaluations : List (Nat × EvalResult))
    (intention : Intention) : Decision :=
  let bestPair := find_best_position evaluations
  let best_position : Option Position :=
    match bestPair.1 with
    | none => none
    | some pid =>
        if pid = 0 then none
        else store.positions.find? (fun q => q.position_id = pid)
  if intention.has_explicit_position then
    match intention.explicit_position.bind
        (fun nm => store.positions.find? (fun q => q.name = nm)) with
    | some explicit_pos =>
        { is_locked := true
        , no_matched := false
        , auto_matched_position := some explicit_pos.name
        , best_score :=
            match lookupEval explicit_pos.position_id evaluations with
            | some e => e.overall_score
            | none => 60 }
    | none =>
        { is_locked := false
        , no_matched := true
        , auto_matched_position := best_position.map Position.name
        , best_score := bestPair.2 }
  else
    { is_locked := false
    , no_matched := false
    , auto_matched_position := best_position.map Position.name
    , best_score := bestPair.2 }

/-- The caller-facing result dictionary of `process_resume`. -/
inductive ResumeResult where
  | errorEmptyPositions
  | errorPdf (msg : String)
  | errorExtract (msg : String)
  | errorSave (msg : String)
  | success (candidate_id : Nat) (name : String) (auto_matched_position : Option String)
      (auto_matched_score : Int) (is_position_locked : Bool)
      (no_matched_position : Bool) (extraction_quality : Int)
deriving Repr, DecidableEq

/-- Step 7 of `process_resume`: the `Candidate` row constructed at
`service.py` lines 142–166.  The autoincremented primary key is modelled as
one past the number of existing candidate rows. -/
def buildCandidateRow (store : Store) (info : CandidateInfo) (intention : Intention)
    (d : Decision) : Candidate :=
  { candidate_id := store.candidates.length + 1
  , name := info.name.getD "未知"
  , age := info.age
  , email := info.email
  , phone := info.phone
  , skills_json := info.skills
  , work_experience := info.work_experience
  , education := info.education
  , certifications := info.certifications
  , self_evaluation := info.self_evaluation
  , extraction_quality := info.extraction_quality.getD 0
  , has_explicit_position := intention.has_explicit_position
  , explicit_position := intention.explicit_position
  , explicit_position_source := intention.explicit_position_source
  , no_matched_position := d.no_matched
  , auto_matched_position := d.auto_matched_position
  , auto_matched_position_score := some d.best_score
  , is_position_locked := d.is_locked
  , reallocation_count := 0 }

/-- `service.py` lines 181–192: one `CandidatePositionMatch` row per entry of
the evaluation dictionary, method `"INITIAL"`, qualified iff score ≥ 60. -/
def buildInitialMatchRow (cid : Nat) (entry : Nat × EvalResult) : MatchRow :=
  { candidate_id := cid
  , position_id := entry.1
  , overall_score := entry.2.overall_score
  , grade := entry.2.grade
  , evaluation_reason := entry.2.evaluation_reason.getD ""
  , is_qualified := 60 ≤ entry.2.overall_score
  , evaluation_method := "INITIAL" }

/-- `RecruitmentService.process_resume` (`service.py` lines 34–224).

Returns the caller-facing result, the committed store after the run, and the
rows that were `session.add`ed after the commit and are therefore still
pending (uncommitted) when the function returns — in the source this is
exactly the audit row added by `_log_audit` at lines 197–205, since
`_log_audit` only calls `session.add`.

A database failure during step 7 rolls the whole unit back
(`session.rollback()`, lines 218–224): the committed store is unchanged and a
save-error result is returned. -/
def process_resume (env : ResumeEnv) (store : Store) :
    ResumeResult × Store × List AuditRow :=
  -- Step 1: positions check
  if (activePositions store).isEmpty then
    (.errorEmptyPositions, store, [])
  else
    -- Step 2: PDF parse
    match env.pdf with
    | .error msg => (.errorPdf msg, store, [])
    | .ok _text =>
      -- Step 3: information extraction
      match env.extract with
      | .error msg => (.errorExtract msg, store, [])
      | .ok info =>
        -- Step 4: intention analysis, degraded to "no explicit intention"
        let intention := match env.intentionCall with
          | .error _ => intentionFallback
          | .ok i => i
        -- Step 5: evaluate every active position
        let evaluations := buildEvaluations env store
        -- Step 6: allocation decision
        let d := resumeDecision store evaluations intention
        -- Step 7: persist as one transaction, audit row added after commit
        if env.dbFails then
          (.errorSave "数据保存失败", store, [])
        else
          let cand := buildCandidateRow store info intention d
          let version : VersionRow :=
            { candidate_id := cand.candidate_id
            , notes := "初始上传: " ++ env.filename }
          let rows := evaluations.map (buildInitialMatchRow cand.candidate_id)
          let store' :=
            { store with
              candidates := store.candidates ++ [cand]
            , versions := store.versions ++ [version]
            , matchRows := store.matchRows ++ rows }
          let audit : AuditRow :=
            { operator := "system", action := "RESUME_UPLOADED"
            , candidate_id := some cand.candidate_id, position_id := none }
          (.success cand.candidate_id cand.name d.auto_matched_position d.best_score
             d.is_locked d.no_matched (info.extraction_quality.getD 0),
           store', [audit])

/-! ## The LangGraph allocation-decision node (agent_nodes.py) -/

/-- `agent_nodes.py` lines 168–248,
`ResumeProcessingNodes.node_make_allocation_decision`, with a live session
(`self.session` is always set in the application wiring).  Returns `none` when
the node errors out for lack of evaluation data (`state["evaluations"]`
empty); otherwise the decision written into `state["allocation_decision"]`.
The find-best loop (lines 189–196) is the same first-max loop as
`_find_best_position`; the best position's name degrades to `"未知岗位"` when
the id lookup finds no row, and to `None` when the best id is falsy. -/
def node_make_allocation_decision (db : List Position)
    (evaluations : List (Nat × EvalResult)) (intention : Option Intention) :
    Option Decision :=
  if evaluations.isEmpty then none
  else
    let bestPair := findBestGo (none, -1) evaluations
    let best_position_name : Option String :=
      match bestPair.1 with
      | none => none
      | some pid =>
          if pid = 0 then none
          else
            match db.find? (fun q => q.position_id = pid) with
            | some bp => some bp.name
            | none => some "未知岗位"
    -- `if intention and intention.get("has_explicit_position"):`
    match intention with
    | some intent =>
        if intent.has_explicit_position then
          match intent.explicit_position.bind
              (fun nm => db.find? (fun q => q.name = nm)) with
          | some explicit_pos =>
              some { is_locked := true
                   , no_matched := false
                   , auto_matched_position := some explicit_pos.name
                   , best_score :=
                       match lookupEval explicit_pos.position_id evaluations with
                       | some e => e.overall_score
                       | none => 60 }
          | none =>
              some { is_locked := false
                   , no_matched := true
                   , auto_matched_position := best_position_name
                   , best_score := bestPair.2 }
        else
          some { is_locked := false
               , no_matched := false
               , auto_matched_position := best_position_name
               , best_score := bestPair.2 }
    | none =>
        some { is_locked := false
             , no_matched := false
             , auto_matched_position := best_position_name
             , best_score := bestPair.2 }

/-! ## The reallocation sweep (service.py, `_reallocate_explicit_intention_candidates`) -/

/-- The parsed match-intention response
(`llm_service.py`, `match_position_to_intention`): the JSON keys `match` and
`confidence` after `safe_parse_json`, with the documented default
`{match: False, confidence: 0.0}` already applied. -/
structure MatchIntentionResult where
  is_match : Bool
  confidence : ℚ
deriving Repr, DecidableEq

/-- A Python exception value as the sweep observes it. -/
inductive PyErr where
  | typeError
  | raised (msg : String)
deriving Repr, DecidableEq

/-- The number of parameters besides `self` in the signature of
`LLMService.match_position_to_intention` (`llm_service.py` lines 405–406):
`(new_position_name, explicit_position)`. -/
def matchPositionToIntentionParamCount : Nat := 2

/-- A positional Python call to `LLMService.match_position_to_intention`.
The body runs only when exactly two positional arguments are supplied, in
which case they bind to `(new_position_name, explicit_position)` and the
reasoning-service oracle decides the outcome; any other argument count raises
`TypeError` before the body (and hence the reasoning service) is reached. -/
def callMatchPositionToIntention
    (oracle : String → String → Except String MatchIntentionResult)
    (args : List (Option String)) : Except PyErr MatchIntentionResult :=
  match args with
  | [newPositionName, explicitPosition] =>
      match oracle (newPositionName.getD "") (explicitPosition.getD "") with
      | .error msg => .error (.raised msg)
      | .ok r => .ok r
  | _ => .error .typeError

/-- The per-candidate evaluate-candidate call inside the sweep
(`service.py` lines 362–367).  Its four positional arguments match the four
parameters of `evaluate_candidate_for_position`, so the call binds and the
oracle decides the outcome per candidate. -/
def sweepEvalCall (evalOracle : Candidate → EvalCallOutcome) (c : Candidate) :
    Except PyErr EvalResult :=
  match evalOracle c with
  | .raised msg => .error (.raised msg)
  | .returned parsed => .ok (evaluatePost parsed)

/-- One entry of the change report returned by the sweep
(`service.py` lines 407–416). -/
structure ReallocationChange where
  candidate_id : Nat
  candidate_name : String
  old_position : Option String
  old_score : Option Int
  new_position : String
  new_score : Int
deriving Repr, DecidableEq

/-- The effect of the sweep body on one candidate: the candidate row after
the iteration, the change-report entry (if any), and the history and match
rows added for it. -/
structure ReallocOutcome where
  candidate : Candidate
  change : Option ReallocationChange
  history : List HistoryRow
  matchRows : List MatchRow
deriving Repr, DecidableEq

/-- The oracles for the reasoning-service calls the sweep makes. -/
structure SweepOracles where
  matchOracle : String → String → Except String MatchIntentionResult
  evalOracle : Candidate → EvalCallOutcome

/-- The body of the per-candidate `try:` block of
`_reallocate_explicit_intention_candidates` (`service.py` lines 344–416),
before the surrounding `except`.  The match-intention call passes the three
positional arguments `(candidate.explicit_position, new_position.name,
new_position.description)`.  On a match with confidence above 0.8 the
candidate is evaluated against the new position, its assignment fields are
updated and locked, and history, match-row and change entries are produced;
otherwise the candidate is returned unchanged. -/
def reallocStepRaw (os : SweepOracles) (new_position : Position) (c : Candidate) :
    Except PyErr ReallocOutcome := do
  let match_result ← callMatchPositionToIntention os.matchOracle
    [c.explicit_position, some new_position.name, some new_position.description]
  if match_result.is_match ∧ match_result.confidence > 8/10 then
    let eval_result ← sweepEvalCall os.evalOracle c
    let old_pos := c.auto_matched_position
    let old_score := c.auto_matched_position_score
    let new_score := eval_result.overall_score
    let c' := { c with
      auto_matched_position := some new_position.name
    , auto_matched_position_score := some new_score
    , is_position_locked := true
    , no_matched_position := false
    , reallocation_count := c.reallocation_count + 1 }
    let history : HistoryRow :=
      { candidate_id := c.candidate_id
      , old_position := old_pos
      , old_score := old_score
      , new_position := new_position.name
      , new_score := new_score
      , trigger_event := "NEW_POSITION"
      , reason := "求职意向岗位已创建" }
    let matchRow : MatchRow :=
      { candidate_id := c.candidate_id
      , position_id := new_position.position_id
      , overall_score := new_score
      , grade := eval_result.grade
      , evaluation_reason := eval_result.evaluation_reason.getD ""
      , is_qualified := 60 ≤ new_score
      , evaluation_method := "BATCH" }
    let change : ReallocationChange :=
      { candidate_id := c.candidate_id
      , candidate_name := c.name
      , old_position := old_pos
      , old_score := old_score
      , new_position := new_position.name
      , new_score := new_score }
    pure { candidate := c', change := some change
         , history := [history], matchRows := [matchRow] }
  else
    pure { candidate := c, change := none, history := [], matchRows := [] }

/-- The per-candidate iteration with its `except Exception` handler
(`service.py` lines 343–419): any exception is logged and the candidate is
left untouched. -/
def reallocStep (os : SweepOracles) (new_position : Position) (c : Candidate) :
    ReallocOutcome :=
  match reallocStepRaw os new_position c with
  | .ok o => o
  | .error _ => { candidate := c, change := none, history := [], matchRows := [] }

/-- `service.py` lines 337–341: the eligibility filter of the sweep —
`has_explicit_position == True`, `no_matched_position == True`,
`is_position_locked == False`. -/
def eligibleForRealloc (c : Candidate) : Bool :=
  c.has_explicit_position && c.no_matched_position && !c.is_position_locked

/-- The candidate row after the sweep: eligible candidates go through the
iteration body, every other row is never loaded by the query and is untouched. -/
def reallocUpdate (os : SweepOracles) (new_position : Position) (c : Candidate) :
    Candidate :=
  if eligibleForRealloc c then (reallocStep os new_position c).candidate else c

/-- The aggregate result of one reallocation sweep. -/
structure SweepResult where
  changes : List ReallocationChange
  candidates : List Candidate
  history : List HistoryRow
  matchRows : List MatchRow
  audit : AuditRow
deriving Repr, DecidableEq

/-- `RecruitmentService._reallocate_explicit_intention_candidates`
(`service.py` lines 318–432): scan the eligible candidates in order, apply
the guarded per-candidate body, collect the change report, and add one audit
row (action `"REALLOCATE_EXPLICIT_INTENTION"`).  `candidates` is the full
candidate table after the sweep. -/
def reallocate_explicit_intention_candidates (os : SweepOracles)
    (new_position : Position) (candidates : List Candidate) : SweepResult :=
  let outcomes := (candidates.filter eligibleForRealloc).map (reallocStep os new_position)
  { changes := outcomes.filterMap ReallocOutcome.change
  , candidates := candidates.map (reallocUpdate os new_position)
  , history := outcomes.flatMap ReallocOutcome.history
  , matchRows := outcomes.flatMap ReallocOutcome.matchRows
  , audit :=
      { operator := "system", action := "REALLOCATE_EXPLICIT_INTENTION"
      , candidate_id := none, position_id := some new_position.position_id } }

/-! ## Helper lemmas -/

/-- The grade chain of `evaluate_candidate_for_position` agrees with the
specification's bracket table on every integer score. -/
lemma grade_chain_eq_gradeSpec (sc : Int) :
    (if 86 ≤ sc then "A" else if 76 ≤ sc then "B" else if 60 ≤ sc then "C" else "D")
      = gradeSpec sc := by
  unfold gradeSpec
  split_ifs <;> first | rfl | omega

/-- Every recorded evaluation score is nonnegative: raised calls give 0,
parse failures give 50, parsed scores are clamped into `[0, 100]`. -/
lemma evalOutcomeResult_score_nonneg (o : EvalCallOutcome) :
    0 ≤ (evalOutcomeResult o).overall_score := by
  rcases o with msg | parsed
  · simp [evalOutcomeResult]
  · rcases parsed with _ | r
    · simp [evalOutcomeResult, evaluatePost, evalParseDefault]
    · rcases hos : r.overall_score with _ | s <;>
        simp [evalOutcomeResult, evaluatePost, hos]

/-- `find?` with an injective key scan: if the keys of `l` are nodup and
`a ∈ l`, then searching for `a`'s key finds exactly `a`. -/
lemma find_key_eq_some_of_nodup {α β : Type} [DecidableEq β] (key : α → β)
    (l : List α) (a : α) (ha : a ∈ l) (hnd : (l.map key).Nodup) :
    l.find? (fun x => decide (key x = key a)) = some a := by
  induction l with
  | nil => cases ha
  | cons b t ih =>
      rcases List.mem_cons.mp ha with rfl | hat
      · simp [List.find?]
      · have hnd2 : (key b :: t.map key).Nodup := hnd
        have hnotin : key b ∉ t.map key := (List.nodup_cons.mp hnd2).1
        have hne : key b ≠ key a := by
          intro h
          exact hnotin (h ▸ List.mem_map_of_mem key hat)
        have hnd' : (t.map key).Nodup := (List.nodup_cons.mp hnd2).2
        rw [List.find?_cons_of_neg _ (by simpa using hne)]
        exact ih hat hnd'

/-- `find?` returns `none` when no element satisfies the key search. -/
lemma find_key_eq_none {α β : Type} [DecidableEq β] (key : α → β)
    (l : List α) (k : β) (h : ∀ x ∈ l, key x ≠ k) :
    l.find? (fun x => decide (key x = k)) = none := by
  rw [List.find?_eq_none]
  intro x hx
  simpa using h x hx

/-- Looking up a position's id in the evaluation dictionary built over a list
with nodup ids returns that position's own evaluation. -/
lemma lookupEval_map_eq (f : Position → EvalResult) (l : List Position) (p : Position)
    (hp : p ∈ l) (hnd : (l.map Position.position_id).Nodup) :
    lookupEval p.position_id (l.map (fun q => (q.position_id, f q))) = some (f p) := by
  induction l with
  | nil => cases hp
  | cons b t ih =>
      have hnd2 : (b.position_id :: t.map Position.position_id).Nodup := hnd
      have hnd' : (t.map Position.position_id).Nodup := (List.nodup_cons.mp hnd2).2
      have hnotin : b.position_id ∉ t.map Position.position_id := (List.nodup_cons.mp hnd2).1
      rcases List.mem_cons.mp hp with rfl | hpt
      · simp [lookupEval]
      · have hne : b.position_id ≠ p.position_id := by
          intro h
          exact hnotin (h ▸ List.mem_map_of_mem Position.position_id hpt)
        simp only [List.map_cons, lookupEval, if_neg (Ne.symm hne ∘ Eq.symm)]
        exact ih hpt hnd'

/-- Characterisation of the first-max loop of `_find_best_position`: starting
from accumulator `(accP, accS)` the loop either keeps the accumulator (when no
score exceeds `accS`) or returns the first list entry that strictly exceeds
`accS` and every later entry only ties or falls below it. -/
lemma findBestGo_spec (l : List (Nat × EvalResult)) :
    ∀ (accP : Option Nat) (accS : Int),
    (findBestGo (accP, accS) l = (accP, accS) ∧ ∀ x ∈ l, x.2.overall_score ≤ accS) ∨
    (∃ pre e suf, l = pre ++ e :: suf ∧
       findBestGo (accP, accS) l = (some e.1, e.2.overall_score) ∧
       accS < e.2.overall_score ∧
       (∀ x ∈ pre, x.2.overall_score < e.2.overall_score) ∧
       (∀ x ∈ l, x.2.overall_score ≤ e.2.overall_score)) := by
  induction l with
  | nil =>
      intro accP accS
      exact Or.inl ⟨rfl, by simp⟩
  | cons c t ih =>
      intro accP accS
      obtain ⟨pid, ev⟩ := c
      by_cases h : ev.overall_score > accS
      · rcases ih (some pid) ev.overall_score with ⟨heq, hle⟩ | ⟨pre, e, suf, hl, heq, hlt, hpre, hall⟩
        · refine Or.inr ⟨[], (pid, ev), t, by simp, ?_, h, by simp, ?_⟩
          · rw [findBestGo, if_pos h]
            exact heq
          · intro x hx
            rcases List.mem_cons.mp hx with rfl | hxt
            · exact le_refl _
            · exact hle x hxt
        · refine Or.inr ⟨(pid, ev) :: pre, e, suf, by rw [hl, List.cons_append], ?_, lt_trans h hlt, ?_, ?_⟩
          · rw [findBestGo, if_pos h]
            exact heq
          · intro x hx
            rcases List.mem_cons.mp hx with rfl | hxp
            · exact hlt
            · exact hpre x hxp
          · intro x hx
            rcases List.mem_cons.mp hx with rfl | hxt
            · exact le_of_lt hlt
            · exact hall x (hl ▸ hxt)
      · push_neg at h
        rcases ih accP accS with ⟨heq, hle⟩ | ⟨pre, e, suf, hl, heq, hlt, hpre, hall⟩
        · refine Or.inl ⟨?_, ?_⟩
          · rw [findBestGo, if_neg (by omega)]
            exact heq
          · intro x hx
            rcases List.mem_cons.mp hx with rfl | hxt
            · exact h
            · exact hle x hxt
        · refine Or.inr ⟨(pid, ev) :: pre, e, suf, by rw [hl, List.cons_append], ?_, hlt, ?_, ?_⟩
          · rw [findBestGo, if_neg (by omega)]
            exact heq
          · intro x hx
            rcases List.mem_cons.mp hx with rfl | hxp
            · exact lt_of_le_of_lt h hlt
            · exact hpre x hxp
          · intro x hx
            rcases List.mem_cons.mp hx with rfl | hxt
            · exact le_trans h (le_of_lt hlt)
            · exact hall x (hl ▸ hxt)

/-- `find_best_position` on a nonempty evaluation list with nonnegative
scores returns the first entry attaining the maximal score. -/
lemma find_best_position_first_max (evals : List (Nat × EvalResult))
    (hne : evals ≠ []) (hnn : ∀ x ∈ evals, 0 ≤ x.2.overall_score) :
    ∃ pre e suf, evals = pre ++ e :: suf ∧
      findBestGo (none, -1) evals = (some e.1, e.2.overall_score) ∧
      find_best_position evals = (some e.1, e.2.overall_score) ∧
      (∀ x ∈ evals, x.2.overall_score ≤ e.2.overall_score) ∧
      (∀ x ∈ pre, x.2.overall_score < e.2.overall_score) := by
  rcases findBestGo_spec evals none (-1) with ⟨_, hle⟩ | ⟨pre, e, suf, hl, heq, _, hpre, hall⟩
  · obtain ⟨x, hx⟩ := List.exists_mem_of_ne_nil evals hne
    have h1 := hle x hx
    have h2 := hnn x hx
    omega
  · have hfbp : find_best_position evals = (some e.1, e.2.overall_score) := by
      unfold find_best_position
      rw [if_neg (by simp [List.isEmpty_iff, hne])]
      exact heq
    exact ⟨pre, e, suf, hl, heq, hfbp, hall, hpre⟩

/-- Ids of the active positions are nodup whenever ids of all positions are. -/
lemma activePositions_ids_nodup (store : Store)
    (hids : (store.positions.map Position.position_id).Nodup) :
    ((activePositions store).map Position.position_id).Nodup :=
  List.Nodup.sublist ((List.filter_sublist store.positions).map Position.position_id) hids

/-- The committed store and pending audit row produced by a `process_resume`
run that reaches step 7 and commits successfully. -/
def resumeSuccessTriple (env : ResumeEnv) (store : Store) (info : CandidateInfo)
    (intention : Intention) : ResumeResult × Store × List AuditRow :=
  let d := resumeDecision store (buildEvaluations env store) intention
  let cand := buildCandidateRow store info intention d
  (ResumeResult.success cand.candidate_id cand.name d.auto_matched_position d.best_score
     d.is_locked d.no_matched (info.extraction_quality.getD 0),
   { store with
     candidates := store.candidates ++ [cand]
   , versions := store.versions ++
       [{ candidate_id := cand.candidate_id, notes := "初始上传: " ++ env.filename }]
   , matchRows := store.matchRows ++
       (buildEvaluations env store).map (buildInitialMatchRow cand.candidate_id) },
   [{ operator := "system", action := "RESUME_UPLOADED"
    , candidate_id := some cand.candidate_id, position_id := none }])

/-- A `process_resume` run with at least one active position, a parsed PDF, a
successful extraction and intention call, and a healthy database commits the
candidate, version and match rows and leaves the audit row pending. -/
lemma process_resume_success_shape (env : ResumeEnv) (store : Store)
    (txt : String) (info : CandidateInfo) (i : Intention)
    (hact : activePositions store ≠ [])
    (hpdf : env.pdf = .ok txt) (hex : env.extract = .ok info)
    (hint : env.intentionCall = .ok i) (hdb : env.dbFails = false) :
    process_resume env store = resumeSuccessTriple env store info i := by
  unfold process_resume resumeSuccessTriple
  rw [hpdf, hex, hint, hdb]
  rw [if_neg (by simp [List.isEmpty_iff, hact])]
  rfl

/-- A `process_resume` run that reaches step 7 with a failing database rolls
back: save-error result, unchanged store, nothing pending. -/
lemma process_resume_save_failure_shape (env : ResumeEnv) (store : Store)
    (txt : String) (info : CandidateInfo) (i : Intention)
    (hact : activePositions store ≠ [])
    (hpdf : env.pdf = .ok txt) (hex : env.extract = .ok info)
    (hint : env.intentionCall = .ok i) (hdb : env.dbFails = true) :
    process_resume env store = (ResumeResult.errorSave "数据保存失败", store, []) := by
  unfold process_resume
  rw [hpdf, hex, hint, hdb]
  rw [if_neg (by simp [List.isEmpty_iff, hact])]
  rfl

/-- Step 6 when the intention names a position present in the catalog: lock
onto it and take its own evaluated score (default 60 when it was never
evaluated, i.e. when it is inactive). -/
lemma resumeDecision_explicit_found (store : Store) (evals : List (Nat × EvalResult))
    (i : Intention) (p : Position)
    (hp : p ∈ store.positions)
    (hhas : i.has_explicit_position = true) (hname : i.explicit_position = some p.name)
    (hnames : (store.positions.map Position.name).Nodup) :
    resumeDecision store evals i =
      { is_locked := true, no_matched := false
      , auto_matched_position := some p.name
      , best_score := match lookupEval p.position_id evals with
                      | some e => e.overall_score
                      | none => 60 } := by
  unfold resumeDecision
  rw [hhas, hname]
  have hfind := find_key_eq_some_of_nodup Position.name store.positions p hp hnames
  simp only [Option.some_bind, hfind, if_true]

/-- Step 6 when the intention names a position absent from the catalog: the
pending flag is set and the provisional best assignment stands. -/
lemma resumeDecision_explicit_missing (store : Store) (evals : List (Nat × EvalResult))
    (i : Intention) (nm : String)
    (hhas : i.has_explicit_position = true) (hname : i.explicit_position = some nm)
    (hmiss : ∀ q ∈ store.positions, q.name ≠ nm) :
    resumeDecision store evals i =
      { is_locked := false, no_matched := true
      , auto_matched_position :=
          (match (find_best_position evals).1 with
           | none => none
           | some pid =>
               if pid = 0 then none
               else store.positions.find? (fun q : Position => q.position_id = pid)).map
            Position.name
      , best_score := (find_best_position evals).2 } := by
  unfold resumeDecision
  rw [hhas, hname]
  have hfind := find_key_eq_none Position.name store.positions nm hmiss
  simp only [Option.some_bind, hfind, if_true]

/-! ## Concrete sample data used by witnesses and counterexamples -/

/-- A pending candidate whose explicit intention names "Data Engineer"
(eligible for the reallocation sweep). -/
def pendingDataEngineerCandidate : Candidate :=
  { candidate_id := 1, name := "王五", age := some 24, email := some "w@example.com"
  , phone := none, skills_json := ["Python", "SQL"], work_experience := "[]"
  , education := "[]", certifications := "[]", self_evaluation := some "勤奋"
  , extraction_quality := 75, has_explicit_position := true
  , explicit_position := some "Data Engineer", explicit_position_source := some "自我评价"
  , no_matched_position := true, auto_matched_position := some "后端工程师"
  , auto_matched_position_score := some 70, is_position_locked := false
  , reallocation_count := 0 }

/-- A locked, already-matched candidate (ineligible for the sweep). -/
def lockedCandidate : Candidate :=
  { pendingDataEngineerCandidate with
    candidate_id := 9, no_matched_position := false, is_position_locked := true }

/-- A freshly created "Data Engineer" position. -/
def dataEngineerPosition : Position :=
  { position_id := 2, name := "Data Engineer", description := "数据工程师岗位"
  , required_skills := ["Python", "SQL"], is_active := true }

/-- Sweep oracles under which the reasoning service, if it were ever reached,
would report a confident match (confidence 0.9 > 0.8) and an evaluation of
score 88. -/
def confidentOracles : SweepOracles :=
  { matchOracle := fun _ _ => .ok { is_match := true, confidence := 9/10 }
  , evalOracle := fun _ => .returned (some
      { overall_score := some 88, grade := some "B", evaluation_reason := some "优秀" }) }

/-- A sample extracted candidate-information dictionary. -/
def infoSample : CandidateInfo :=
  { name := some "张三", age := some 24, email := some "z@example.com"
  , phone := some "13800000000", skills := ["Python"], work_experience := "[]"
  , education := "[]", certifications := "[]", self_evaluation := some "认真"
  , extraction_quality := some 75 }

/-- A store whose only position is inactive, so the active catalog is empty. -/
def emptyCatalogStore : Store :=
  { positions := [{ position_id := 3, name := "旧岗位", description := ""
                  , required_skills := [], is_active := false }]
  , candidates := [], matchRows := [], history := [], versions := [], audits := [] }

/-- A run environment in which every external call succeeds benignly. -/
def benignEnv : ResumeEnv :=
  { pdf := .ok "简历文本", extract := .ok infoSample
  , intentionCall := .ok { has_explicit_position := false, explicit_position := none
                         , explicit_position_source := none }
  , evalCall := fun _ => .returned (some
      { overall_score := some 70, grade := some "C", evaluation_reason := some "一般" })
  , dbFails := false, filename := "resume.pdf" }

/-! ## Claim theorems -/

/-- C2 (confirmed).  For every evaluation result produced by the position
evaluator — whether the reasoning-service call raised, returned an unparsable
response or returned a parsed response proposing any grade string — the
recorded letter grade is the pure function of the final integer score given
by the specification's bracket table (≥86 → A, 76–85 → B, 60–75 → C,
below 60 → D). -/
theorem evaluator_grade_is_pure_function_of_score (o : EvalCallOutcome) :
    (evalOutcomeResult o).grade = gradeSpec (evalOutcomeResult o).overall_score := by
  rcases o with msg | parsed
  · show "D" = gradeSpec 0
    decide
  · show (evaluatePost parsed).grade = gradeSpec (evaluatePost parsed).overall_score
    unfold evaluatePost
    exact grade_chain_eq_gradeSpec _

/-- C5 (confirmed).  With zero active positions, `process_resume` returns the
fatal `POSITION_DB_EMPTY` error before any external call or write: the store
is unchanged and nothing is pending. -/
theorem resume_aborts_on_empty_position_catalog (env : ResumeEnv) (store : Store)
    (h : activePositions store = []) :
    process_resume env store = (ResumeResult.errorEmptyPositions, store, []) := by
  unfold process_resume
  rw [h]
  rfl

/-- Witness for C5 at a concrete store whose only position is inactive. -/
theorem resume_aborts_on_empty_position_catalog_witness :
    activePositions emptyCatalogStore = [] ∧
    process_resume benignEnv emptyCatalogStore
      = (ResumeResult.errorEmptyPositions, emptyCatalogStore, []) :=
  ⟨rfl, resume_aborts_on_empty_position_catalog benignEnv emptyCatalogStore rfl⟩

/-- C1 (code_bug evidence).  The sweep's match-intention call at
`service.py:346–350` passes three positional arguments to a two-parameter
method, so it raises `TypeError` before the reasoning service is consulted:
even under oracles reporting `match = true` with confidence 0.9 (> 0.8) and a
successful evaluation, the pending candidate is left unchanged (still
pending, not locked), no change is reported, and no history or match row is
appended — whereas both the code's own docstring ("匹配 → 更新分配、锁定、完成")
and the claim require the match to be applied. -/
theorem reallocation_sweep_never_applies_accepted_match :
    eligibleForRealloc pendingDataEngineerCandidate = true ∧
    confidentOracles.matchOracle dataEngineerPosition.name "Data Engineer"
      = Except.ok { is_match := true, confidence := 9/10 } ∧
    ((9 : ℚ)/10 > 8/10) ∧
    reallocStepRaw confidentOracles dataEngineerPosition pendingDataEngineerCandidate
      = Except.error PyErr.typeError ∧
    reallocate_explicit_intention_candidates confidentOracles dataEngineerPosition
        [pendingDataEngineerCandidate]
      = { changes := []
        , candidates := [pendingDataEngineerCandidate]
        , history := []
        , matchRows := []
        , audit := { operator := "system", action := "REALLOCATE_EXPLICIT_INTENTION"
                   , candidate_id := none, position_id := some 2 } } := by
  refine ⟨rfl, rfl, by norm_num, rfl, rfl⟩

/-- C7 (confirmed).  The reallocation sweep never modifies a candidate who
lacks an explicit intention, is not pending, or is locked: such a candidate
fails the eligibility query, its row is mapped to itself, and it is present
unchanged in the post-sweep candidate table — for every choice of oracles and
newly created position. -/
theorem reallocation_never_touches_ineligible_candidates (os : SweepOracles)
    (new_position : Position) (candidates : List Candidate) (c : Candidate)
    (hmem : c ∈ candidates)
    (hno : c.has_explicit_position = false ∨ c.no_matched_position = false ∨
           c.is_position_locked = true) :
    reallocUpdate os new_position c = c ∧
    (reallocate_explicit_intention_candidates os new_position candidates).candidates
      = candidates.map (reallocUpdate os new_position) ∧
    c ∈ (reallocate_explicit_intention_candidates os new_position candidates).candidates := by
  have hel : eligibleForRealloc c = false := by
    unfold eligibleForRealloc
    rcases hno with h | h | h <;> simp [h]
  have hupd : reallocUpdate os new_position c = c := by
    unfold reallocUpdate
    rw [hel]
    rfl
  refine ⟨hupd, rfl, ?_⟩
  show c ∈ candidates.map (reallocUpdate os new_position)
  exact List.mem_map.mpr ⟨c, hmem, hupd⟩

/-- Witness for C7: a locked candidate in a singleton table is untouched. -/
theorem reallocation_never_touches_ineligible_candidates_witness :
    lockedCandidate ∈ [lockedCandidate] ∧
    (lockedCandidate.has_explicit_position = false ∨
     lockedCandidate.no_matched_position = false ∨
     lockedCandidate.is_position_locked = true) ∧
    (reallocUpdate confidentOracles dataEngineerPosition lockedCandidate = lockedCandidate ∧
     (reallocate_explicit_intention_candidates confidentOracles dataEngineerPosition
         [lockedCandidate]).candidates
       = [lockedCandidate].map (reallocUpdate confidentOracles dataEngineerPosition) ∧
     lockedCandidate ∈ (reallocate_explicit_intention_candidates confidentOracles
         dataEngineerPosition [lockedCandidate]).candidates) :=
  ⟨List.mem_singleton.mpr rfl, Or.inr (Or.inl rfl),
   reallocation_never_touches_ineligible_candidates confidentOracles dataEngineerPosition
     [lockedCandidate] lockedCandidate (List.mem_singleton.mpr rfl) (Or.inr (Or.inl rfl))⟩

/-- C10 (confirmed).  Inside one sweep, an exception raised while processing
one eligible candidate (the body of the per-candidate `try:`) is caught for
that candidate alone: the candidate is left unchanged with no change, history
or match-row entry, and the sweep's results on `c :: rest` coincide with its
results on `rest` — the remaining candidates are still processed and the
change list is still returned instead of the sweep aborting. -/
theorem sweep_catches_per_candidate_failure (os : SweepOracles) (new_position : Position)
    (c : Candidate) (err : PyErr) (rest : List Candidate)
    (hel : eligibleForRealloc c = true)
    (herr : reallocStepRaw os new_position c = Except.error err) :
    reallocStep os new_position c
      = { candidate := c, change := none, history := [], matchRows := [] } ∧
    (reallocate_explicit_intention_candidates os new_position (c :: rest)).changes
      = (reallocate_explicit_intention_candidates os new_position rest).changes ∧
    (reallocate_explicit_intention_candidates os new_position (c :: rest)).candidates
      = c :: (reallocate_explicit_intention_candidates os new_position rest).candidates ∧
    (reallocate_explicit_intention_candidates os new_position (c :: rest)).history
      = (reallocate_explicit_intention_candidates os new_position rest).history ∧
    (reallocate_explicit_intention_candidates os new_position (c :: rest)).matchRows
      = (reallocate_explicit_intention_candidates os new_position rest).matchRows := by
  have hstep : reallocStep os new_position c
      = { candidate := c, change := none, history := [], matchRows := [] } := by
    unfold reallocStep
    rw [herr]
  refine ⟨hstep, ?_, ?_, ?_, ?_⟩ <;>
    simp [reallocate_explicit_intention_candidates, reallocUpdate, hel, hstep]

/-- Witness for C10 at a concrete eligible candidate whose processing raises
(`TypeError` from the mis-aritied match call). -/
theorem sweep_catches_per_candidate_failure_witness :
    eligibleForRealloc pendingDataEngineerCandidate = true ∧
    reallocStepRaw confidentOracles dataEngineerPosition pendingDataEngineerCandidate
      = Except.error PyErr.typeError ∧
    reallocStep confidentOracles dataEngineerPosition pendingDataEngineerCandidate
      = { candidate := pendingDataEngineerCandidate
        , change := none, history := [], matchRows := [] } ∧
    (reallocate_explicit_intention_candidates confidentOracles dataEngineerPosition
        (pendingDataEngineerCandidate :: [lockedCandidate])).changes
      = (reallocate_explicit_intention_candidates confidentOracles dataEngineerPosition
          [lockedCandidate]).changes ∧
    (reallocate_explicit_intention_candidates confidentOracles dataEngineerPosition
        (pendingDataEngineerCandidate :: [lockedCandidate])).candidates
      = pendingDataEngineerCandidate ::
          (reallocate_explicit_intention_candidates confidentOracles dataEngineerPosition
            [lockedCandidate]).candidates ∧
    (reallocate_explicit_intention_candidates confidentOracles dataEngineerPosition
        (pendingDataEngineerCandidate :: [lockedCandidate])).history
      = (reallocate_explicit_intention_candidates confidentOracles dataEngineerPosition
          [lockedCandidate]).history ∧
    (reallocate_explicit_intention_candidates confidentOracles dataEngineerPosition
        (pendingDataEngineerCandidate :: [lockedCandidate])).matchRows
      = (reallocate_explicit_intention_candidates confidentOracles dataEngineerPosition
          [lockedCandidate]).matchRows := by
  have h := sweep_catches_per_candidate_failure confidentOracles dataEngineerPosition
    pendingDataEngineerCandidate PyErr.typeError [lockedCandidate] rfl rfl
  exact ⟨rfl, rfl, h.1, h.2.1, h.2.2.1, h.2.2.2.1, h.2.2.2.2⟩

/-- An active "后端工程师" (backend engineer) position. -/
def backendPosition : Position :=
  { position_id := 1, name := "后端工程师", description := "后端开发"
  , required_skills := ["Python"], is_active := true }

/-- A catalog containing both the backend position and the Data Engineer
position, both active. -/
def twoPositionStore : Store :=
  { positions := [backendPosition, dataEngineerPosition]
  , candidates := [], matchRows := [], history := [], versions := [], audits := [] }

/-- An environment whose candidate explicitly wants "Data Engineer" and whose
evaluations score the intended position 66 but the backend position 90. -/
def lockEnv : ResumeEnv :=
  { pdf := .ok "简历文本", extract := .ok infoSample
  , intentionCall := .ok { has_explicit_position := true
                         , explicit_position := some "Data Engineer"
                         , explicit_position_source := some "自我评价" }
  , evalCall := fun pid =>
      if pid = 2 then
        .returned (some { overall_score := some 66, grade := some "C"
                        , evaluation_reason := some "尚可" })
      else
        .returned (some { overall_score := some 90, grade := some "A"
                        , evaluation_reason := some "极佳" })
  , dbFails := false, filename := "resume.pdf" }

/-- C3 (confirmed).  When the candidate's explicit intention names a position
that exists among the active positions, the pipeline locks onto it: the
result and the persisted candidate carry `is_position_locked = true`,
`no_matched_position = false`, the intended position's name, and that
position's own evaluated score (not the best-scoring position's score); the
LangGraph decision node computes the same decision. -/
theorem resume_locks_onto_existing_intended_position
    (env : ResumeEnv) (store : Store) (txt : String) (info : CandidateInfo)
    (i : Intention) (p : Position)
    (hp : p ∈ store.positions) (hact : p.is_active = true)
    (hpdf : env.pdf = Except.ok txt) (hex : env.extract = Except.ok info)
    (hint : env.intentionCall = Except.ok i)
    (hhas : i.has_explicit_position = true) (hname : i.explicit_position = some p.name)
    (hnames : (store.positions.map Position.name).Nodup)
    (hids : (store.positions.map Position.position_id).Nodup)
    (hdb : env.dbFails = false) :
    (process_resume env store).1
      = ResumeResult.success (store.candidates.length + 1) (info.name.getD "未知")
          (some p.name) ((evalOutcomeResult (env.evalCall p.position_id)).overall_score)
          true false (info.extraction_quality.getD 0) ∧
    (∃ cand, (process_resume env store).2.1.candidates = store.candidates ++ [cand] ∧
       cand.is_position_locked = true ∧ cand.no_matched_position = false ∧
       cand.auto_matched_position = some p.name ∧
       cand.auto_matched_position_score
         = some ((evalOutcomeResult (env.evalCall p.position_id)).overall_score)) ∧
    node_make_allocation_decision store.positions (buildEvaluations env store) (some i)
      = some { is_locked := true, no_matched := false
             , auto_matched_position := some p.name
             , best_score := (evalOutcomeResult (env.evalCall p.position_id)).overall_score } := by
  have hpa : p ∈ activePositions store := List.mem_filter.mpr ⟨hp, by simp [hact]⟩
  have hactne : activePositions store ≠ [] := List.ne_nil_of_mem hpa
  have hidsA := activePositions_ids_nodup store hids
  have hlook : lookupEval p.position_id (buildEvaluations env store)
      = some (evalOutcomeResult (env.evalCall p.position_id)) :=
    lookupEval_map_eq (fun q => evalOutcomeResult (env.evalCall q.position_id))
      (activePositions store) p hpa hidsA
  have hfind := find_key_eq_some_of_nodup Position.name store.positions p hp hnames
  have hdec : resumeDecision store (buildEvaluations env store) i
      = { is_locked := true, no_matched := false
        , auto_matched_position := some p.name
        , best_score := (evalOutcomeResult (env.evalCall p.position_id)).overall_score } := by
    rw [resumeDecision_explicit_found store (buildEvaluations env store) i p hp hhas hname
      hnames, hlook]
  have hshape := process_resume_success_shape env store txt info i hactne hpdf hex hint hdb
  have hbne : buildEvaluations env store ≠ [] := by
    simp only [buildEvaluations, ne_eq, List.map_eq_nil_iff]
    exact hactne
  refine ⟨?_, ?_, ?_⟩
  · rw [hshape]
    unfold resumeSuccessTriple
    rw [hdec]
    rfl
  · rw [hshape]
    unfold resumeSuccessTriple
    rw [hdec]
    exact ⟨_, rfl, rfl, rfl, rfl, rfl⟩
  · unfold node_make_allocation_decision
    rw [if_neg (by simp [List.isEmpty_iff, hbne])]
    show (if i.has_explicit_position then _ else _) = _
    rw [hhas, hname]
    simp only [if_true, Option.some_bind, hfind, hlook]

/-- Witness for C3: the candidate wants the existing "Data Engineer" position
(score 66) even though the backend position scores 90; the result locks onto
Data Engineer with score 66. -/
theorem resume_locks_onto_existing_intended_position_witness :
    (dataEngineerPosition ∈ twoPositionStore.positions ∧
     dataEngineerPosition.is_active = true) ∧
    ((process_resume lockEnv twoPositionStore).1
      = ResumeResult.success 1 "张三" (some "Data Engineer")
          ((evalOutcomeResult (lockEnv.evalCall dataEngineerPosition.position_id)).overall_score)
          true false 75 ∧
     (∃ cand, (process_resume lockEnv twoPositionStore).2.1.candidates = [] ++ [cand] ∧
        cand.is_position_locked = true ∧ cand.no_matched_position = false ∧
        cand.auto_matched_position = some "Data Engineer" ∧
        cand.auto_matched_position_score
          = some ((evalOutcomeResult
              (lockEnv.evalCall dataEngineerPosition.position_id)).overall_score)) ∧
     node_make_allocation_decision twoPositionStore.positions
        (buildEvaluations lockEnv twoPositionStore)
        (some { has_explicit_position := true
              , explicit_position := some "Data Engineer"
              , explicit_position_source := some "自我评价" })
      = some { is_locked := true, no_matched := false
             , auto_matched_position := some "Data Engineer"
             , best_score := (evalOutcomeResult
                 (lockEnv.evalCall dataEngineerPosition.position_id)).overall_score }) :=
  ⟨⟨by decide, rfl⟩,
   resume_locks_onto_existing_intended_position lockEnv twoPositionStore "简历文本"
     infoSample _ dataEngineerPosition (by decide) rfl rfl rfl rfl rfl rfl
     (by decide) (by decide) rfl⟩

/-- An active "前端工程师" (frontend engineer) position. -/
def frontendPosition : Position :=
  { position_id := 3, name := "前端工程师", description := "前端开发"
  , required_skills := ["JavaScript"], is_active := true }

/-- A catalog without any "Data Engineer" position. -/
def noDataEngineerStore : Store :=
  { positions := [backendPosition, frontendPosition]
  , candidates := [], matchRows := [], history := [], versions := [], audits := [] }

/-- An environment whose candidate explicitly wants the nonexistent
"Data Engineer" position; the backend position scores best (85 vs 62). -/
def pendingEnv : ResumeEnv :=
  { pdf := .ok "简历文本", extract := .ok infoSample
  , intentionCall := .ok { has_explicit_position := true
                         , explicit_position := some "Data Engineer"
                         , explicit_position_source := some "自我评价" }
  , evalCall := fun pid =>
      if pid = 1 then
        .returned (some { overall_score := some 85, grade := some "B"
                        , evaluation_reason := some "很好" })
      else
        .returned (some { overall_score := some 62, grade := some "C"
                        , evaluation_reason := some "一般" })
  , dbFails := false, filename := "resume.pdf" }

/-- C4 (confirmed).  When the candidate's explicit intention names a position
that exists nowhere in the catalog, the pipeline marks the candidate pending
(`no_matched_position = true`, `is_position_locked = false`) and assigns the
highest-scored existing active position with that position's own score; the
LangGraph decision node computes the same decision. -/
theorem resume_pending_on_missing_intended_position
    (env : ResumeEnv) (store : Store) (txt : String) (info : CandidateInfo)
    (i : Intention) (nm : String)
    (hpdf : env.pdf = Except.ok txt) (hex : env.extract = Except.ok info)
    (hint : env.intentionCall = Except.ok i)
    (hhas : i.has_explicit_position = true) (hname : i.explicit_position = some nm)
    (hmiss : ∀ q ∈ store.positions, q.name ≠ nm)
    (hactne : activePositions store ≠ [])
    (hids : (store.positions.map Position.position_id).Nodup)
    (h0 : ∀ q ∈ store.positions, q.position_id ≠ 0)
    (hdb : env.dbFails = false) :
    ∃ bp, bp ∈ activePositions store ∧
      (process_resume env store).1
        = ResumeResult.success (store.candidates.length + 1) (info.name.getD "未知")
            (some bp.name)
            ((evalOutcomeResult (env.evalCall bp.position_id)).overall_score)
            false true (info.extraction_quality.getD 0) ∧
      (∀ q ∈ activePositions store,
        (evalOutcomeResult (env.evalCall q.position_id)).overall_score
          ≤ (evalOutcomeResult (env.evalCall bp.position_id)).overall_score) ∧
      node_make_allocation_decision store.positions (buildEvaluations env store) (some i)
        = some { is_locked := false, no_matched := true
               , auto_matched_position := some bp.name
               , best_score :=
                   (evalOutcomeResult (env.evalCall bp.position_id)).overall_score } := by
  have hbne : buildEvaluations env store ≠ [] := by
    simp only [buildEvaluations, ne_eq, List.map_eq_nil_iff]
    exact hactne
  have hnn : ∀ x ∈ buildEvaluations env store, 0 ≤ x.2.overall_score := by
    intro x hx
    obtain ⟨q, _, rfl⟩ := List.mem_map.mp hx
    exact evalOutcomeResult_score_nonneg _
  obtain ⟨pre, e, suf, hl, hgo, hfbp, hall, _⟩ :=
    find_best_position_first_max (buildEvaluations env store) hbne hnn
  have he : e ∈ buildEvaluations env store := by
    rw [hl]
    exact List.mem_append_right _ (List.mem_cons_self _ _)
  obtain ⟨bp, hbp, hbe⟩ := List.mem_map.mp he
  cases hbe
  dsimp only at hgo hfbp hall
  have hbp' : bp ∈ store.positions := (List.mem_filter.mp hbp).1
  have hfind_id := find_key_eq_some_of_nodup Position.position_id store.positions bp hbp' hids
  have hfind_nm := find_key_eq_none Position.name store.positions nm hmiss
  have hdec : resumeDecision store (buildEvaluations env store) i
      = { is_locked := false, no_matched := true
        , auto_matched_position := some bp.name
        , best_score := (evalOutcomeResult (env.evalCall bp.position_id)).overall_score } := by
    rw [resumeDecision_explicit_missing store (buildEvaluations env store) i nm hhas hname
      hmiss, hfbp]
    simp only [if_neg (h0 bp hbp'), hfind_id]
    rfl
  have hshape := process_resume_success_shape env store txt info i hactne hpdf hex hint hdb
  refine ⟨bp, hbp, ?_, ?_, ?_⟩
  · rw [hshape]
    unfold resumeSuccessTriple
    rw [hdec]
    rfl
  · intro q hq
    exact hall _ (List.mem_map_of_mem _ hq)
  · unfold node_make_allocation_decision
    rw [if_neg (by simp [List.isEmpty_iff, hbne])]
    show (if i.has_explicit_position then _ else _) = _
    rw [hhas, hname]
    simp only [if_true, Option.some_bind, hfind_nm, hgo, if_neg (h0 bp hbp'), hfind_id]

/-- Witness for C4: the candidate wants the nonexistent "Data Engineer";
the backend position (score 85) is assigned provisionally, pending. -/
theorem resume_pending_on_missing_intended_position_witness :
    ((∀ q ∈ noDataEngineerStore.positions, q.name ≠ "Data Engineer") ∧
     activePositions noDataEngineerStore ≠ []) ∧
    (∃ bp, bp ∈ activePositions noDataEngineerStore ∧
      (process_resume pendingEnv noDataEngineerStore).1
        = ResumeResult.success 1 "张三" (some bp.name)
            ((evalOutcomeResult (pendingEnv.evalCall bp.position_id)).overall_score)
            false true 75 ∧
      (∀ q ∈ activePositions noDataEngineerStore,
        (evalOutcomeResult (pendingEnv.evalCall q.position_id)).overall_score
          ≤ (evalOutcomeResult (pendingEnv.evalCall bp.position_id)).overall_score) ∧
      node_make_allocation_decision noDataEngineerStore.positions
          (buildEvaluations pendingEnv noDataEngineerStore)
          (some { has_explicit_position := true
                , explicit_position := some "Data Engineer"
                , explicit_position_source := some "自我评价" })
        = some { is_locked := false, no_matched := true
               , auto_matched_position := some bp.name
               , best_score :=
                   (evalOutcomeResult (pendingEnv.evalCall bp.position_id)).overall_score }) :=
  ⟨⟨by decide, by decide⟩,
   resume_pending_on_missing_intended_position pendingEnv noDataEngineerStore "简历文本"
     infoSample _ "Data Engineer" rfl rfl rfl rfl rfl (by decide) (by decide) (by decide)
     (by decide) rfl⟩

/-- C9 (confirmed).  On any nonempty evaluation dictionary with nonnegative
scores (every recorded score is nonnegative, see
`evalOutcomeResult_score_nonneg`), `_find_best_position` returns an entry
attaining the maximum score, and under ties it is deterministic: the returned
entry is the first in the dictionary's stable order, every earlier entry
scoring strictly lower. -/
theorem find_best_position_is_first_maximum (evals : List (Nat × EvalResult))
    (hne : evals ≠ []) (hnn : ∀ x ∈ evals, 0 ≤ x.2.overall_score) :
    ∃ pre e suf, evals = pre ++ e :: suf ∧
      find_best_position evals = (some e.1, e.2.overall_score) ∧
      (∀ x ∈ evals, x.2.overall_score ≤ e.2.overall_score) ∧
      (∀ x ∈ pre, x.2.overall_score < e.2.overall_score) := by
  obtain ⟨pre, e, suf, hl, _, hfbp, hall, hpre⟩ :=
    find_best_position_first_max evals hne hnn
  exact ⟨pre, e, suf, hl, hfbp, hall, hpre⟩

/-- Witness for C9 on a concrete dictionary with a tie (ids 2 and 3 both
score 88): the first of them wins. -/
theorem find_best_position_is_first_maximum_witness :
    (([(1, { overall_score := 70, grade := "C", evaluation_reason := none }),
       (2, { overall_score := 88, grade := "A", evaluation_reason := none }),
       (3, { overall_score := 88, grade := "A", evaluation_reason := none })]
        : List (Nat × EvalResult)) ≠ [] ∧
     (∀ x ∈ ([(1, { overall_score := 70, grade := "C", evaluation_reason := none }),
              (2, { overall_score := 88, grade := "A", evaluation_reason := none }),
              (3, { overall_score := 88, grade := "A", evaluation_reason := none })]
          : List (Nat × EvalResult)), 0 ≤ x.2.overall_score)) ∧
    (∃ pre e suf,
      ([(1, { overall_score := 70, grade := "C", evaluation_reason := none }),
        (2, { overall_score := 88, grade := "A", evaluation_reason := none }),
        (3, { overall_score := 88, grade := "A", evaluation_reason := none })]
         : List (Nat × EvalResult)) = pre ++ e :: suf ∧
      find_best_position
          [(1, { overall_score := 70, grade := "C", evaluation_reason := none }),
           (2, { overall_score := 88, grade := "A", evaluation_reason := none }),
           (3, { overall_score := 88, grade := "A", evaluation_reason := none })]
        = (some e.1, e.2.overall_score) ∧
      (∀ x ∈ ([(1, { overall_score := 70, grade := "C", evaluation_reason := none }),
               (2, { overall_score := 88, grade := "A", evaluation_reason := none }),
               (3, { overall_score := 88, grade := "A", evaluation_reason := none })]
           : List (Nat × EvalResult)), x.2.overall_score ≤ e.2.overall_score) ∧
      (∀ x ∈ pre, x.2.overall_score < e.2.overall_score)) :=
  ⟨⟨by decide, by decide⟩,
   find_best_position_is_first_maximum _ (by decide) (by decide)⟩

/-- A catalog with only the backend position. -/
def oneBackendStore : Store :=
  { positions := [backendPosition]
  , candidates := [], matchRows := [], history := [], versions := [], audits := [] }

/-- An environment whose evaluate-candidate call returns an unparsable
response for every position. -/
def unparsableEnv : ResumeEnv :=
  { pdf := .ok "简历文本", extract := .ok infoSample
  , intentionCall := .ok { has_explicit_position := false, explicit_position := none
                         , explicit_position_source := none }
  , evalCall := fun _ => .returned none
  , dbFails := false, filename := "resume.pdf" }

/-- An environment whose evaluate-candidate call raises for every position. -/
def raisingEvalEnv : ResumeEnv :=
  { pdf := .ok "简历文本", extract := .ok infoSample
  , intentionCall := .ok { has_explicit_position := false, explicit_position := none
                         , explicit_position_source := none }
  , evalCall := fun _ => .raised "连接超时"
  , dbFails := false, filename := "resume.pdf" }

/-- C6 counterexample.  An unparsable evaluation response does NOT yield a
recorded score of 0: the parse fallback dictionary carries score 50, which is
clamped to 50 and recorded with grade D and rationale "无法评分".  The claim's
"score 0" holds only for raised calls, not for unparsable responses. -/
theorem unparsable_evaluation_records_fifty_not_zero :
    (process_resume unparsableEnv oneBackendStore).2.1.matchRows
      = [{ candidate_id := 1, position_id := 1, overall_score := 50, grade := "D"
         , evaluation_reason := "无法评分", is_qualified := false
         , evaluation_method := "INITIAL" }] ∧
    (50 : Int) ≠ 0 :=
  ⟨rfl, by decide⟩

/-- C6 (amended, confirmed).  For every active position: the pipeline
completes the decision and persists the candidate; the position's recorded
match row carries exactly the degraded evaluation; a raised
reasoning-service call degrades to score 0, grade D and the rationale
`"评分失败: <msg>"`, while an unparsable response degrades to the parser's
default score 50, grade D and rationale "无法评分". -/
theorem evaluation_failure_degrades_and_pipeline_persists
    (env : ResumeEnv) (store : Store) (txt : String) (info : CandidateInfo)
    (i : Intention) (p : Position)
    (hp : p ∈ store.positions) (hact : p.is_active = true)
    (hpdf : env.pdf = Except.ok txt) (hex : env.extract = Except.ok info)
    (hint : env.intentionCall = Except.ok i) (hdb : env.dbFails = false) :
    (∃ cid nme ap sc lk pend q, (process_resume env store).1
        = ResumeResult.success cid nme ap sc lk pend q) ∧
    (∃ cand, (process_resume env store).2.1.candidates = store.candidates ++ [cand]) ∧
    buildInitialMatchRow (store.candidates.length + 1)
        (p.position_id, evalOutcomeResult (env.evalCall p.position_id))
      ∈ (process_resume env store).2.1.matchRows ∧
    (∀ msg, env.evalCall p.position_id = EvalCallOutcome.raised msg →
       evalOutcomeResult (env.evalCall p.position_id)
         = { overall_score := 0, grade := "D"
           , evaluation_reason := some ("评分失败: " ++ msg) }) ∧
    (env.evalCall p.position_id = EvalCallOutcome.returned none →
       evalOutcomeResult (env.evalCall p.position_id)
         = { overall_score := 50, grade := "D", evaluation_reason := some "无法评分" }) := by
  have hpa : p ∈ activePositions store := List.mem_filter.mpr ⟨hp, by simp [hact]⟩
  have hactne : activePositions store ≠ [] := List.ne_nil_of_mem hpa
  have hshape := process_resume_success_shape env store txt info i hactne hpdf hex hint hdb
  refine ⟨?_, ?_, ?_, ?_, ?_⟩
  · rw [hshape]
    exact ⟨_, _, _, _, _, _, _, rfl⟩
  · rw [hshape]
    exact ⟨_, rfl⟩
  · rw [hshape]
    show _ ∈ store.matchRows ++
      (buildEvaluations env store).map (buildInitialMatchRow _)
    exact List.mem_append_right _
      (List.mem_map_of_mem _ (List.mem_map_of_mem _ hpa))
  · intro msg hmsg
    rw [hmsg]
    rfl
  · intro h
    rw [h]
    rfl

/-- Witness for the amended C6 at a concrete raising evaluation call. -/
theorem evaluation_failure_degrades_and_pipeline_persists_witness :
    (backendPosition ∈ oneBackendStore.positions ∧
     backendPosition.is_active = true) ∧
    ((∃ cid nme ap sc lk pend q, (process_resume raisingEvalEnv oneBackendStore).1
        = ResumeResult.success cid nme ap sc lk pend q) ∧
     (∃ cand, (process_resume raisingEvalEnv oneBackendStore).2.1.candidates
        = [] ++ [cand]) ∧
     buildInitialMatchRow 1
         (backendPosition.position_id,
          evalOutcomeResult (raisingEvalEnv.evalCall backendPosition.position_id))
       ∈ (process_resume raisingEvalEnv oneBackendStore).2.1.matchRows ∧
     (∀ msg, raisingEvalEnv.evalCall backendPosition.position_id
          = EvalCallOutcome.raised msg →
        evalOutcomeResult (raisingEvalEnv.evalCall backendPosition.position_id)
          = { overall_score := 0, grade := "D"
            , evaluation_reason := some ("评分失败: " ++ msg) }) ∧
     (raisingEvalEnv.evalCall backendPosition.position_id
          = EvalCallOutcome.returned none →
        evalOutcomeResult (raisingEvalEnv.evalCall backendPosition.position_id)
          = { overall_score := 50, grade := "D"
            , evaluation_reason := some "无法评分" })) :=
  ⟨⟨by decide, rfl⟩,
   evaluation_failure_degrades_and_pipeline_persists raisingEvalEnv oneBackendStore
     "简历文本" infoSample _ backendPosition (by decide) rfl rfl rfl rfl rfl⟩

/-- C8 counterexample.  On a fully successful run, the candidate and match
rows are committed but no audit row is: `_log_audit` only `session.add`s the
audit row after the commit, so it is returned pending and the committed audit
table stays empty — the three kinds of rows are not stored as one atomic
unit. -/
theorem audit_row_left_uncommitted_on_success :
    (process_resume benignEnv oneBackendStore).1
      = ResumeResult.success 1 "张三" (some "后端工程师") 70 false false 75 ∧
    (process_resume benignEnv oneBackendStore).2.1.candidates ≠ [] ∧
    (process_resume benignEnv oneBackendStore).2.1.matchRows ≠ [] ∧
    (process_resume benignEnv oneBackendStore).2.1.audits = [] ∧
    (process_resume benignEnv oneBackendStore).2.2
      = [{ operator := "system", action := "RESUME_UPLOADED"
         , candidate_id := some 1, position_id := none }] :=
  ⟨rfl, by decide, by decide, rfl, rfl⟩

/-- C8 (amended, confirmed).  The transactional unit of step 7 consists of
the candidate row, the version row and all per-position match rows: on a
write failure the whole unit rolls back (store unchanged, database-error
result); on success exactly those rows are committed together, while the
audit row is only added to the session after the commit — it is returned
pending and the committed audit table is unchanged. -/
theorem persistence_commits_candidate_version_matches_without_audit
    (env : ResumeEnv) (store : Store) (txt : String) (info : CandidateInfo)
    (i : Intention)
    (hact : activePositions store ≠ [])
    (hpdf : env.pdf = Except.ok txt) (hex : env.extract = Except.ok info)
    (hint : env.intentionCall = Except.ok i) :
    (env.dbFails = true →
       process_resume env store = (ResumeResult.errorSave "数据保存失败", store, [])) ∧
    (env.dbFails = false →
       (∃ cand version rows,
          (process_resume env store).2.1
            = { store with
                candidates := store.candidates ++ [cand]
              , versions := store.versions ++ [version]
              , matchRows := store.matchRows ++ rows }) ∧
       (process_resume env store).2.1.audits = store.audits ∧
       (∃ audit, (process_resume env store).2.2 = [audit]) ∧
       (∃ cid nme ap sc lk pend q,
          (process_resume env store).1 = ResumeResult.success cid nme ap sc lk pend q)) := by
  constructor
  · intro hdb
    exact process_resume_save_failure_shape env store txt info i hact hpdf hex hint hdb
  · intro hdb
    have hshape := process_resume_success_shape env store txt info i hact hpdf hex hint hdb
    rw [hshape]
    refine ⟨⟨_, _, _, rfl⟩, rfl, ⟨_, rfl⟩, _, _, _, _, _, _, _, rfl⟩

/-- Witness for the amended C8 on a concrete healthy run. -/
theorem persistence_commits_candidate_version_matches_without_audit_witness :
    activePositions oneBackendStore ≠ [] ∧
    ((benignEnv.dbFails = true →
        process_resume benignEnv oneBackendStore
          = (ResumeResult.errorSave "数据保存失败", oneBackendStore, [])) ∧
     (benignEnv.dbFails = false →
        (∃ cand version rows,
           (process_resume benignEnv oneBackendStore).2.1
             = { oneBackendStore with
                 candidates := oneBackendStore.candidates ++ [cand]
               , versions := oneBackendStore.versions ++ [version]
               , matchRows := oneBackendStore.matchRows ++ rows }) ∧
        (process_resume benignEnv oneBackendStore).2.1.audits = oneBackendStore.audits ∧
        (∃ audit, (process_resume benignEnv oneBackendStore).2.2 = [audit]) ∧
        (∃ cid nme ap sc lk pend q,
           (process_resume benignEnv oneBackendStore).1
             = ResumeResult.success cid nme ap sc lk pend q))) :=
  ⟨by decide,
   persistence_commits_candidate_version_matches_without_audit benignEnv oneBackendStore
     "简历文本" infoSample _ (by decide) rfl rfl rfl⟩

end Recruitment
